import Mathlib

/-!
# Verification of the tasktui core against its specification

This file gives a shallow embedding, in Lean 4, of the core of the
`tasktui` task tracker: the persistence layer (`src/storage.rs`), the
data model and filter engine (`src/models.rs`), the view-navigation
state machine (`src/tui/app.rs`) and the timeline layout engine
(`src/tui/project_gantt.rs`), together with theorems settling the
spec claims about them.

Modelling conventions:
* Rust `String`/`&str` values are modelled as `List Char` (`Str` below),
  so that the byte-level delimiter handling of the file format can be
  reasoned about directly.
* `Uuid` values are modelled as their hyphenated string form (`Str`);
  uuid string parsing is not modelled.
* `DateTime<Utc>` is modelled as a natural-number timestamp: `serde`
  round-trips datetimes bijectively and compares them chronologically,
  which is all the code under study relies on.
* File-system effects are modelled by passing directory contents
  explicitly and returning lists of written tasks.
-/

/-- Rust strings, modelled as lists of characters. -/
abbrev Str : Type := List Char

/-- The character class trimmed by Rust `str::trim` (ASCII fragment;
the source only ever trims ASCII content here). -/
def isWS (c : Char) : Bool :=
  c == ' ' || c == '\t' || c == '\n' || c == '\r'

/-- Rust `str::trim`: drop whitespace from both ends. -/
def trimL (s : Str) : Str :=
  ((s.dropWhile isWS).reverse.dropWhile isWS).reverse

/-- Split a string at the first occurrence of `pat` (leftmost match):
returns the part before and the part after the match.  This is the
primitive underlying Rust `str::splitn`. -/
def splitFirst (pat : Str) : Str → Option (Str × Str)
  | [] => if pat.isPrefixOf ([] : Str) then some ([], []) else none
  | c :: cs =>
    if pat.isPrefixOf (c :: cs) then
      some ([], (c :: cs).drop pat.length)
    else
      (splitFirst pat cs).map (fun p => (c :: p.1, p.2))

/-- `pat` occurs somewhere in `s`. -/
def containsSub (pat s : Str) : Bool :=
  (splitFirst pat s).isSome

/-- Split a string into its `'\n'`-separated lines
(the line-oriented view the YAML subset decoder works on). -/
def splitLinesNL : Str → List Str
  | [] => [[]]
  | c :: cs =>
    if c == '\n' then
      [] :: splitLinesNL cs
    else
      match splitLinesNL cs with
      | [] => [[c]]
      | l :: ls => (c :: l) :: ls

/-- Decimal digits of a natural number, most significant first
(the form `serde` writes the modelled timestamp in); structural
recursion on an ample fuel argument, always sufficient at `n + 1`. -/
def natCharsAux : Nat → Nat → Str
  | 0, _ => []
  | fuel + 1, n =>
    if n < 10 then
      [Nat.digitChar n]
    else
      natCharsAux fuel (n / 10) ++ [Nat.digitChar (n % 10)]

/-- Decimal digits of a natural number, most significant first. -/
def natChars (n : Nat) : Str := natCharsAux (n + 1) n

/-- Fold decimal digits back into a number. -/
def parseNatAux (s : Str) (acc : Nat) : Nat :=
  s.foldl (fun a c => a * 10 + (c.toNat - '0'.toNat)) acc

/-- Parse a decimal natural number; fails on empty or non-digit input. -/
def parseNatStr (s : Str) : Option Nat :=
  if s ≠ [] && s.all Char.isDigit then some (parseNatAux s 0) else none

/-- `src/models.rs` — task status enum
{Active, Next, Waiting, Done, Archived}, serialized lowercase. -/
inductive Status : Type
  | Active
  | Next
  | Waiting
  | Done
  | Archived
deriving DecidableEq

/-- `Status::as_str` / its serde lowercase form. -/
def Status.as_str : Status → Str
  | .Active => "active".toList
  | .Next => "next".toList
  | .Waiting => "waiting".toList
  | .Done => "done".toList
  | .Archived => "archived".toList

/-- Decode a lowercase status string (serde deserialization). -/
def Status.fromStr (s : Str) : Option Status :=
  if s == "active".toList then some .Active
  else if s == "next".toList then some .Next
  else if s == "waiting".toList then some .Waiting
  else if s == "done".toList then some .Done
  else if s == "archived".toList then some .Archived
  else none

/-- `src/models.rs` — item type enum, serialized lowercase.
The file `src/models.rs` as provided declares only `Task`, `Goal` and
`Note`; the `Project` variant is referenced by `src/mcp/tools.rs`
(exhaustive four-arm match) and by `src/tui/app.rs`, so its declaration
is missing from the provided sources.  Modelled from the spec:
`item_type`: tagged variant {Task, Goal, Note, Project}. -/
inductive ItemType : Type
  | Task
  | Goal
  | Note
  | Project
deriving DecidableEq

/-- Serde lowercase form of an item type (`src/mcp/tools.rs` names). -/
def ItemType.as_str : ItemType → Str
  | .Task => "task".toList
  | .Goal => "goal".toList
  | .Note => "note".toList
  | .Project => "project".toList

/-- Decode a lowercase item-type string. -/
def ItemType.fromStr (s : Str) : Option ItemType :=
  if s == "task".toList then some .Task
  else if s == "goal".toList then some .Goal
  else if s == "note".toList then some .Note
  else if s == "project".toList then some .Project
  else none

/-- `src/models.rs` — priority level with order Low < Medium < High. -/
inductive Priority : Type
  | Low
  | Medium
  | High
deriving DecidableEq

/-- Numeric rank realising the derived `Ord` on `Priority`. -/
def Priority.rank : Priority → Nat
  | .Low => 0
  | .Medium => 1
  | .High => 2

/-- Serde lowercase form of a priority. -/
def Priority.as_str : Priority → Str
  | .Low => "low".toList
  | .Medium => "medium".toList
  | .High => "high".toList

/-- Decode a lowercase priority string. -/
def Priority.fromStr (s : Str) : Option Priority :=
  if s == "low".toList then some .Low
  else if s == "medium".toList then some .Medium
  else if s == "high".toList then some .High
  else none

/-- `src/models.rs` — the YAML frontmatter structure.  `id` and
`parent_goal_id` are `Uuid` values modelled as their string form;
`created_at` is a `DateTime<Utc>` modelled as a timestamp. -/
structure Frontmatter : Type where
  id : Str
  item_type : ItemType
  title : Str
  status : Status
  priority : Priority
  tags : List Str
  due_date : Option Str
  parent_goal_id : Option Str
  created_at : Nat
deriving DecidableEq

/-- `src/models.rs` — complete task item (frontmatter + body).
The `file_path` bookkeeping field is not modelled. -/
structure TaskItem : Type where
  frontmatter : Frontmatter
  body : Str
deriving DecidableEq

/-- `TaskItem::has_tag` — exact (case-sensitive) tag membership. -/
def TaskItem.has_tag (t : TaskItem) (tag : Str) : Bool :=
  t.frontmatter.tags.any (fun x => x == tag)

/-- `src/models.rs` — filter criteria for listing tasks. -/
structure TaskFilter : Type where
  status : Option Status
  tags : List Str
  item_type : Option ItemType
  limit : Option Nat

/-- `TaskFilter::matches` — status, type, then AND-semantics tags. -/
def TaskFilter.matches (f : TaskFilter) (item : TaskItem) : Bool :=
  (match f.status with
   | some st => item.frontmatter.status == st
   | none => true) &&
  (match f.item_type with
   | some ty => item.frontmatter.item_type == ty
   | none => true) &&
  f.tags.all (fun tag => item.has_tag tag)

/-- The `---` frontmatter delimiter of the on-disk format. -/
def dashes : Str := "---".toList

/-- The YAML lines `serde_yaml::to_string` emits for a `Frontmatter`
value, in struct declaration order: required fields as `key: value`
lines with plain scalars, empty `tags` as `tags: []`, non-empty `tags`
as a block list, `None` optionals skipped.  This models the
`serde_yaml` output for values it emits as plain scalars. -/
def encLines (fm : Frontmatter) : List Str :=
  ["id: ".toList ++ fm.id,
   "type: ".toList ++ fm.item_type.as_str,
   "title: ".toList ++ fm.title,
   "status: ".toList ++ fm.status.as_str,
   "priority: ".toList ++ fm.priority.as_str]
  ++ (if fm.tags.isEmpty then ["tags: []".toList]
      else "tags:".toList :: fm.tags.map (fun t => "- ".toList ++ t))
  ++ (match fm.due_date with
      | some d => ["due_date: ".toList ++ d]
      | none => [])
  ++ (match fm.parent_goal_id with
      | some p => ["parent_goal_id: ".toList ++ p]
      | none => [])
  ++ ["created_at: ".toList ++ natChars fm.created_at]

/-- Join lines with `'\n'` separators (no trailing separator):
the list-of-lines view of a YAML document body. -/
def joinLines : List Str → Str
  | [] => []
  | [l] => l
  | l :: l2 :: ls => l ++ '\n' :: joinLines (l2 :: ls)

/-- `serde_yaml::to_string` output (trailing newline included). -/
def encodeYaml (fm : Frontmatter) : Str :=
  joinLines (encLines fm) ++ "\n".toList

/-- `Storage::serialize_task` — `format!("---\n{}---\n\n{}", fm, body)`. -/
def serialize_task (item : TaskItem) : Str :=
  "---\n".toList ++ encodeYaml item.frontmatter
    ++ "---\n\n".toList ++ item.body

/-- Partially decoded frontmatter (fields seen so far); `ptagsOpen`
records whether the previous line belonged to an open `tags:` block
list, so block items can be consumed one line at a time. -/
structure PartialFm : Type where
  pid : Option Str := none
  pty : Option ItemType := none
  ptitle : Option Str := none
  pstatus : Option Status := none
  pprio : Option Priority := none
  ptags : Option (List Str) := none
  pdue : Option Str := none
  pparent : Option Str := none
  pcreated : Option Nat := none
  ptagsOpen : Bool := false

/-- A `- item` line of a YAML block list. -/
def dashItem (l : Str) : Bool :=
  "- ".toList.isPrefixOf l

/-- Line-oriented decoder for the YAML subset `serde_yaml` reads the
frontmatter from: `key: value` lines in any order, a `tags:` block list
or `tags: []`, duplicate keys rejected, unknown keys ignored.
Models `serde_yaml::from_str::<Frontmatter>` on its canonical
single-space `key: value` form. -/
def decodeLines : List Str → PartialFm → Option PartialFm
  | [], acc => some acc
  | l :: rest, acc =>
    if l == "tags:".toList then
      match acc.ptags with
      | some _ => none
      | none => decodeLines rest { acc with ptags := some [], ptagsOpen := true }
    else if dashItem l then
      if acc.ptagsOpen then
        match acc.ptags with
        | some ts => decodeLines rest { acc with ptags := some (ts ++ [l.drop 2]) }
        | none => none
      else none
    else
      let acc := { acc with ptagsOpen := false }
      match splitFirst ": ".toList l with
      | none => none
      | some (k, v) =>
        if k == "id".toList then
          match acc.pid with
          | some _ => none
          | none => decodeLines rest { acc with pid := some v }
        else if k == "type".toList then
          match ItemType.fromStr v, acc.pty with
          | some ty, none => decodeLines rest { acc with pty := some ty }
          | _, _ => none
        else if k == "title".toList then
          match acc.ptitle with
          | some _ => none
          | none => decodeLines rest { acc with ptitle := some v }
        else if k == "status".toList then
          match Status.fromStr v, acc.pstatus with
          | some st, none => decodeLines rest { acc with pstatus := some st }
          | _, _ => none
        else if k == "priority".toList then
          match Priority.fromStr v, acc.pprio with
          | some pr, none => decodeLines rest { acc with pprio := some pr }
          | _, _ => none
        else if k == "tags".toList then
          match acc.ptags with
          | some _ => none
          | none =>
            if v == "[]".toList then
              decodeLines rest { acc with ptags := some [] }
            else none
        else if k == "due_date".toList then
          match acc.pdue with
          | some _ => none
          | none => decodeLines rest { acc with pdue := some v }
        else if k == "parent_goal_id".toList then
          match acc.pparent with
          | some _ => none
          | none => decodeLines rest { acc with pparent := some v }
        else if k == "created_at".toList then
          match parseNatStr v, acc.pcreated with
          | some n, none => decodeLines rest { acc with pcreated := some n }
          | _, _ => none
        else
          decodeLines rest acc

/-- Assemble a `Frontmatter` from decoded fields: `id`, `type`,
`title`, `status`, `created_at` required; `priority` defaults to
Medium; `tags` defaults to empty. -/
def buildFm (p : PartialFm) : Option Frontmatter :=
  match p.pid, p.pty, p.ptitle, p.pstatus, p.pcreated with
  | some i, some ty, some ti, some st, some cr =>
    some ⟨i, ty, ti, st, p.pprio.getD .Medium, p.ptags.getD [], p.pdue, p.pparent, cr⟩
  | _, _, _, _, _ => none

/-- `serde_yaml::from_str::<Frontmatter>` on the trimmed header text. -/
def decodeFrontmatter (s : Str) : Option Frontmatter :=
  (decodeLines (splitLinesNL s) {}).bind buildFm

/-- `Storage::parse_file` — split on `---` via `splitn(3, "---")`
(fail without both delimiters, a FormatError), decode the trimmed
middle part as frontmatter (fail = SchemaError), trim the remainder as
the body.  File reading is modelled by passing the content. -/
def parse_file (content : Str) : Option TaskItem :=
  match splitFirst dashes content with
  | none => none
  | some (_, r1) =>
    match splitFirst dashes r1 with
    | none => none
    | some (fmPart, r2) =>
      (decodeFrontmatter (trimL fmPart)).map (fun fm => ⟨fm, trimL r2⟩)

/-- A directory entry: file name and file content. -/
structure DirEntry : Type where
  name : Str
  content : Str

/-- Rust `path.extension() == Some("md")` for a bare file name. -/
def hasMdExt (name : Str) : Bool :=
  ".md".toList.isSuffixOf name && !(name == ".md".toList)

/-- The `for entry in read_dir` loop of `Storage::load_all_tasks`:
parse each `.md` file, push successes, skip failures with a warning. -/
def loadLoop : List DirEntry → List TaskItem → List TaskItem
  | [], acc => acc
  | e :: rest, acc =>
    if hasMdExt e.name then
      match parse_file e.content with
      | some t => loadLoop rest (acc ++ [t])
      | none => loadLoop rest acc
    else
      loadLoop rest acc

/-- `Storage::load_all_tasks` — empty result (`Ok`) for an absent
directory, otherwise the tolerant per-file loop. -/
def load_all_tasks (dir : Option (List DirEntry)) : List TaskItem :=
  match dir with
  | none => []
  | some entries => loadLoop entries []

/-- The comparator of `Storage::list_tasks`:
`b.priority.cmp(&a.priority).then(b.created_at.cmp(&a.created_at))`. -/
def cmpTasks (a b : TaskItem) : Ordering :=
  (compare b.frontmatter.priority.rank a.frontmatter.priority.rank).then
    (compare b.frontmatter.created_at a.frontmatter.created_at)

/-- `cmpTasks a b ≠ Greater`: `a` may be placed before `b`. -/
def leT (a b : TaskItem) : Bool :=
  match cmpTasks a b with
  | .gt => false
  | _ => true

/-- Insert into a sorted list, before the first element the comparator
does not place strictly earlier (stable insertion). -/
def insertLe (x : TaskItem) : List TaskItem → List TaskItem
  | [] => [x]
  | y :: ys => if leT x y then x :: y :: ys else y :: insertLe x ys

/-- Stable sort by `cmpTasks`.  Rust `slice::sort_by` is a stable sort
with respect to its comparator; any stable sort produces the same
output, realised here as insertion sort. -/
def sortLe : List TaskItem → List TaskItem
  | [] => []
  | x :: xs => insertLe x (sortLe xs)

/-- `Storage::list_tasks` — load, retain matches, stable-sort by
descending priority then descending `created_at`, then truncate. -/
def list_tasks (f : TaskFilter) (dir : Option (List DirEntry)) : List TaskItem :=
  let tasks := load_all_tasks dir
  let kept := tasks.filter (fun t => f.matches t)
  let sorted := sortLe kept
  match f.limit with
  | some n => sorted.take n
  | none => sorted

/-- `src/tui/app.rs` — the view modes. -/
inductive ViewMode : Type
  | Kanban
  | Compact
  | Settings
  | Projects
  | ProjectGantt
deriving DecidableEq

/-- `src/tui/app.rs` — the `App` state, restricted to the fields the
core (navigation and mutation) reads or writes.  The storage handle,
config and enricher collaborators are passed explicitly to the
operations that use them. -/
structure AppState : Type where
  view_mode : ViewMode
  tasks : List TaskItem
  selected_index : Nat
  active_filter : Option Str
  show_new_task : Bool
  new_task_title : Str
  kanban_column : Nat
  kanban_row : Nat
  settings_selected : Nat
  settings_editing : Bool
  settings_edit_text : Str
  projects_selected : Nat
  current_project_id : Option Str
  gantt_selected : Nat
  gantt_scroll_offset : Int
  show_new_project : Bool
  new_project_title : Str
deriving DecidableEq

/-- `App::filtered_tasks` — all tasks, retained by the single active
tag filter when one is set. -/
def filtered_tasks (s : AppState) : List TaskItem :=
  match s.active_filter with
  | none => s.tasks
  | some tag => s.tasks.filter (fun t => t.has_tag tag)

/-- `App::tasks_by_status`. -/
def tasks_by_status (s : AppState) (st : Status) : List TaskItem :=
  (filtered_tasks s).filter (fun t => t.frontmatter.status == st)

/-- `App::display_ordered_tasks` — Active, then Next, then Done
(Archived and Waiting excluded), for the compact view. -/
def display_ordered_tasks (s : AppState) : List TaskItem :=
  tasks_by_status s .Active ++ tasks_by_status s .Next ++ tasks_by_status s .Done

/-- `App::next_task` — advance the compact cursor modulo
`filtered_tasks().len()`. -/
def next_task (s : AppState) : AppState :=
  if (filtered_tasks s).isEmpty then s
  else { s with selected_index := (s.selected_index + 1) % (filtered_tasks s).length }

/-- `App::previous_task`. -/
def previous_task (s : AppState) : AppState :=
  if (filtered_tasks s).isEmpty then s
  else if s.selected_index = 0 then
    { s with selected_index := (filtered_tasks s).length - 1 }
  else
    { s with selected_index := s.selected_index - 1 }

/-- `App::kanban_column_status` — fixed column order
Active, Next, Waiting, Done. -/
def kanban_column_status (s : AppState) : Status :=
  match s.kanban_column with
  | 0 => .Active
  | 1 => .Next
  | 2 => .Waiting
  | 3 => .Done
  | _ => .Active

/-- `App::kanban_column_tasks`. -/
def kanban_column_tasks (s : AppState) : List TaskItem :=
  tasks_by_status s (kanban_column_status s)

/-- `App::kanban_move_left` — wrap the column, clamp the row to the
new column. -/
def kanban_move_left (s : AppState) : AppState :=
  let s1 := { s with kanban_column := if s.kanban_column = 0 then 3 else s.kanban_column - 1 }
  let task_count := (kanban_column_tasks s1).length
  if s1.kanban_row ≥ task_count then { s1 with kanban_row := task_count - 1 } else s1

/-- `App::kanban_move_right`. -/
def kanban_move_right (s : AppState) : AppState :=
  let s1 := { s with kanban_column := (s.kanban_column + 1) % 4 }
  let task_count := (kanban_column_tasks s1).length
  if s1.kanban_row ≥ task_count then { s1 with kanban_row := task_count - 1 } else s1

/-- `App::kanban_move_up` — wrap the row within the column. -/
def kanban_move_up (s : AppState) : AppState :=
  let task_count := (kanban_column_tasks s).length
  if task_count > 0 then
    if s.kanban_row = 0 then { s with kanban_row := task_count - 1 }
    else { s with kanban_row := s.kanban_row - 1 }
  else s

/-- `App::kanban_move_down`. -/
def kanban_move_down (s : AppState) : AppState :=
  let task_count := (kanban_column_tasks s).length
  if task_count > 0 then { s with kanban_row := (s.kanban_row + 1) % task_count }
  else s

/-- The four Kanban navigation actions. -/
inductive KanbanAct : Type
  | left
  | right
  | up
  | down

/-- Dispatch a Kanban navigation action. -/
def kanbanStep : KanbanAct → AppState → AppState
  | .left, s => kanban_move_left s
  | .right, s => kanban_move_right s
  | .up, s => kanban_move_up s
  | .down, s => kanban_move_down s

/-- Modelled from the spec: `TaskItem::is_project` is referenced by
`App::get_projects` but missing from the provided `src/models.rs`.
The spec: a task with `item_type = Project` is discovered by a
predicate over `item_type`. -/
def TaskItem.is_project (t : TaskItem) : Bool :=
  t.frontmatter.item_type == .Project

/-- `App::get_projects` — filter the one shared store by the
project predicate. -/
def get_projects (s : AppState) : List TaskItem :=
  s.tasks.filter (fun t => t.is_project)

/-- `src/llm` — the enrichment result record consumed by
`App::create_new_task`. -/
structure EnrichedTask : Type where
  title : Str
  due_date : Option Str
  priority : Option Str
  tags : List Str
  context : Option Str

/-- `TaskItem::new` — fresh task: status Active, priority Medium, no
tags, no dates, empty body.  The generated uuid and the creation
timestamp are passed explicitly. -/
def TaskItem.new (title : Str) (ty : ItemType) (newId : Str) (now : Nat) : TaskItem :=
  ⟨⟨newId, ty, title, .Active, .Medium, [], none, none, now⟩, []⟩

/-- Modelled from the spec: `TaskItem::new_project` is called by
`App::create_new_project` but missing from the provided
`src/models.rs`; per the data model a project is an ordinary Task Item
whose `item_type` is `Project`. -/
def TaskItem.new_project (title : Str) (newId : Str) (now : Nat) : TaskItem :=
  ⟨⟨newId, .Project, title, .Active, .Medium, [], none, none, now⟩, []⟩

/-- Rust `str::to_lowercase` (ASCII fragment). -/
def toLowerStr (s : Str) : Str :=
  s.map Char.toLower

/-- `App::create_new_task` — on a blank title just close the dialog;
otherwise enrich the trimmed input, build the task, write it, push it,
and reposition both the compact and Kanban cursors.  The enrichment
collaborator, the fresh uuid and the clock are explicit parameters;
the second component collects the tasks written to storage. -/
def create_new_task (enrich : Str → EnrichedTask) (newId : Str) (now : Nat)
    (s : AppState) : AppState × List TaskItem :=
  if (trimL s.new_task_title).isEmpty then
    ({ s with show_new_task := false }, [])
  else
    let enriched := enrich (trimL s.new_task_title)
    let t0 := TaskItem.new enriched.title .Task newId now
    let t1 := match enriched.due_date with
      | some d => { t0 with frontmatter := { t0.frontmatter with due_date := some d } }
      | none => t0
    let t2 := match enriched.priority with
      | some p =>
        { t1 with frontmatter := { t1.frontmatter with priority :=
            (if toLowerStr p == "high".toList then .High
             else if toLowerStr p == "low".toList then .Low
             else .Medium) } }
      | none => t1
    let t3 := if enriched.tags.isEmpty then t2
      else { t2 with frontmatter := { t2.frontmatter with tags := enriched.tags } }
    let t4 := match enriched.context with
      | some ctx => { t3 with body := ctx }
      | none => t3
    let s1 := { s with tasks := s.tasks ++ [t4] }
    let active_count :=
      (s1.tasks.filter (fun t => t.frontmatter.status == Status.Active)).length
    let s2 := { s1 with selected_index := active_count - 1, kanban_column := 0 }
    let kanban_active_count := (kanban_column_tasks s2).length
    ({ s2 with kanban_row := kanban_active_count - 1,
               show_new_task := false, new_task_title := [] }, [t4])

/-- `App::create_new_project` — on a blank title just close the
dialog; otherwise create a Project item, write it, push it, and select
it in the Projects view. -/
def create_new_project (newId : Str) (now : Nat)
    (s : AppState) : AppState × List TaskItem :=
  if (trimL s.new_project_title).isEmpty then
    ({ s with show_new_project := false }, [])
  else
    let project := TaskItem.new_project (trimL s.new_project_title) newId now
    let s1 := { s with tasks := s.tasks ++ [project],
                       show_new_project := false, new_project_title := [] }
    ({ s1 with projects_selected := (get_projects s1).length - 1 }, [project])

/-- `src/tui/project_gantt.rs` — the fields of a child task the
timeline reads.  The `start_date`, `end_date` and `progress` fields
are used by `project_gantt.rs` but missing from the provided
`src/models.rs`; dates appear here already parsed (`parse_date`:
day number for a well-formed `YYYY-MM-DD` string, `none` for an
absent or malformed one). -/
structure GTask : Type where
  start_date : Option Int
  end_date : Option Int
  due_date : Option Int
  status : Status
  progress : Option Nat

/-- The `for task in tasks` loop of `calculate_date_range`: lower the
minimum to any parsed `start_date` below it, raise the maximum to any
parsed `end_date`-else-`due_date` above it. -/
def calcRangeLoop : List GTask → Int → Int → Int × Int
  | [], mn, mx => (mn, mx)
  | t :: rest, mn, mx =>
    let mn1 := match t.start_date with
      | some s => if s < mn then s else mn
      | none => mn
    let mx1 := match (match t.end_date with
        | some e => some e
        | none => t.due_date) with
      | some e => if e > mx then e else mx
      | none => mx
    calcRangeLoop rest mn1 mx1

/-- `calculate_date_range` — base window `[today − 7, today + 30]`,
expanded by the loop, then shifted by the scroll offset. -/
def calculate_date_range (tasks : List GTask) (today : Int) (scroll_offset : Int) :
    Int × Int :=
  let p := calcRangeLoop tasks (today - 7) (today + 30)
  (p.1 + scroll_offset, p.2 + scroll_offset)

/-- The spec wording of per-task date resolution:
`start = start_date, else due_date, else today`. -/
def resolvedStart (t : GTask) (today : Int) : Int :=
  t.start_date.getD (t.due_date.getD today)

/-- The spec wording: `end = end_date, else due_date, else start + 7`. -/
def resolvedEnd (t : GTask) (today : Int) : Int :=
  t.end_date.getD (t.due_date.getD (resolvedStart t today + 7))

/-- The window as the claim states it: base window expanded to the
minimum resolved start and maximum resolved end, then shifted. -/
def claimedDateRange (tasks : List GTask) (today : Int) (scroll_offset : Int) :
    Int × Int :=
  (tasks.foldl (fun m t => min m (resolvedStart t today)) (today - 7) + scroll_offset,
   tasks.foldl (fun m t => max m (resolvedEnd t today)) (today + 30) + scroll_offset)

/-- `render_gantt` — `days_per_char = (total_days / width).max(1.0)`,
real arithmetic modelled by `ℚ`. -/
def days_per_char (total_days width : Nat) : ℚ :=
  max ((total_days : ℚ) / (width : ℚ)) 1

/-- `date_to_col` — clamp days at 0, divide by the scale, truncate
(`as usize`, equal to floor on non-negative values), cap at
`max_col − 1`. -/
def date_to_col (date min_date : Int) (dpc : ℚ) (max_col : Nat) : Nat :=
  let days : Int := max (date - min_date) 0
  let col : Nat := (Int.floor ((days : ℚ) / dpc)).toNat
  min col (max_col - 1)

/-- The date→column mapping as the claim states it:
`clamp(floor((date − window_start) / days_per_column), 0, width − 1)`. -/
def claimedCol (date min_date : Int) (dpc : ℚ) (max_col : Nat) : Int :=
  min (max (Int.floor (((date - min_date : Int) : ℚ) / dpc)) 0) ((max_col : Int) - 1)

/-- A string free of newlines (fits on one line of the header). -/
def lineSafe (s : Str) : Bool :=
  s.all (fun c => !(c == '\n'))

/-- The string fields of a frontmatter are all single-line, so each
lands on exactly one emitted YAML line. -/
def fmLineSafe (fm : Frontmatter) : Bool :=
  lineSafe fm.id && lineSafe fm.title &&
  (match fm.due_date with
   | some d => lineSafe d
   | none => true) &&
  (match fm.parent_goal_id with
   | some p => lineSafe p
   | none => true) &&
  fm.tags.all lineSafe

/-- The fully decoded field record produced by reading back the
encoder's output. -/
def fullPartial (fm : Frontmatter) : PartialFm :=
  ⟨some fm.id, some fm.item_type, some fm.title, some fm.status,
   some fm.priority, some fm.tags, fm.due_date, fm.parent_goal_id,
   some fm.created_at, false⟩

/-- The sort key of `Storage::list_tasks`: priority rank and creation
timestamp. -/
def sortKey (t : TaskItem) : Nat × Nat :=
  (t.frontmatter.priority.rank, t.frontmatter.created_at)

/-- The Kanban cursor invariant of the spec: a column index among the
4 fixed columns, a row inside the current column whenever it is
non-empty, and row 0 when it is empty. -/
def kanbanInv (s : AppState) : Prop :=
  s.kanban_column < 4 ∧
  (0 < (kanban_column_tasks s).length → s.kanban_row < (kanban_column_tasks s).length) ∧
  ((kanban_column_tasks s).length = 0 → s.kanban_row = 0)

/-- A fixed uuid string for concrete examples. -/
def uuidZero : Str :=
  "00000000-0000-0000-0000-000000000000".toList

/-- Concrete counterexample input for the round-trip claim: a task
whose title contains the frontmatter delimiter `---`. -/
def taskBadTitle : TaskItem :=
  ⟨⟨uuidZero, .Task, "a---b".toList, .Active, .Medium, [], none, none, 0⟩, []⟩

/-- A benign concrete task (the shape of the repo's own
`test_parse_and_write` fixture). -/
def taskGood : TaskItem :=
  ⟨⟨uuidZero, .Task, "Test Task".toList, .Active, .High,
    ["test".toList, "work".toList], none, none, 5⟩,
   "This is a test task.".toList⟩

/-- A concrete Active task used in view-navigation examples. -/
def taskActiveEx : TaskItem :=
  ⟨⟨"a1".toList, .Task, "A".toList, .Active, .Medium, [], none, none, 1⟩, []⟩

/-- A concrete Waiting task used in view-navigation examples. -/
def taskWaitingEx : TaskItem :=
  ⟨⟨"w1".toList, .Task, "W".toList, .Waiting, .Medium, [], none, none, 2⟩, []⟩

/-- A concrete Done task used in view-navigation examples. -/
def taskDoneEx : TaskItem :=
  ⟨⟨"d1".toList, .Task, "D".toList, .Done, .Medium, [], none, none, 3⟩, []⟩

/-- Compact view state exhibiting the navigation/display mismatch:
one Active task and one Waiting task, cursor on index 0. -/
def compactBugState : AppState :=
  ⟨.Compact, [taskActiveEx, taskWaitingEx], 0, none, false, [],
   0, 0, 0, false, [], 0, none, 0, 0, false, []⟩

/-- Concrete Kanban state for the navigation witness: two Active
tasks, one Done task, cursor on Active row 1. -/
def kanbanStateW : AppState :=
  ⟨.Kanban, [taskActiveEx, taskActiveEx, taskDoneEx], 0, none, false, [],
   0, 1, 0, false, [], 0, none, 0, 0, false, []⟩

/-- Concrete state with whitespace-only dialog buffers. -/
def dialogStateW : AppState :=
  ⟨.Compact, [taskActiveEx], 0, none, true, "  ".toList,
   0, 0, 0, false, [], 0, none, 0, 0, true, " ".toList⟩

/-- A trivial enrichment collaborator (the no-op fallback shape). -/
def enrichW : Str → EnrichedTask :=
  fun t => ⟨t, none, none, [], none⟩

/-- Concrete gantt child task with only a due date, 100 days in the
past: the probe for the window-expansion rule. -/
def gTaskDueOnly : GTask :=
  ⟨none, none, some (-100), .Active, none⟩

/-- Concrete directory for the storage witnesses: two well-formed
files, one truncated file (no closing delimiter), one non-md file. -/
def dirW : List DirEntry :=
  [⟨"g.md".toList, serialize_task taskGood⟩,
   ⟨"bad.md".toList, "---\nid: x\n".toList⟩,
   ⟨"h.md".toList, serialize_task taskBadTitle⟩,
   ⟨"notes.txt".toList, "hello".toList⟩]

/-- Concrete filter for the list witness. -/
def filterW : TaskFilter :=
  ⟨some .Active, [], none, some 2⟩

/-- Unfolding the tolerant load loop over an accumulator. -/
theorem loadLoop_eq (es : List DirEntry) (acc : List TaskItem) :
    loadLoop es acc =
      acc ++ es.filterMap
        (fun e => if hasMdExt e.name then parse_file e.content else none) := by
  induction es generalizing acc with
  | nil => simp [loadLoop]
  | cons e rest ih =>
    unfold loadLoop
    cases h1 : hasMdExt e.name with
    | false => simp [h1, ih]
    | true =>
      cases h2 : parse_file e.content with
      | none => simp [h1, h2, ih]
      | some t => simp [h1, h2, ih]

/-- C2: `load_all_tasks` never fails as a whole: an absent directory
yields the empty list, and over any set of files the result is exactly
the successfully parsed tasks of the `.md` files, each file handled
independently (a parse failure only drops that file). -/
theorem c2_load_all_tolerant :
    load_all_tasks none = [] ∧
    ∀ entries : List DirEntry,
      load_all_tasks (some entries) =
        entries.filterMap
          (fun e => if hasMdExt e.name then parse_file e.content else none) := by
  constructor
  · rfl
  · intro entries
    show loadLoop entries [] = _
    rw [loadLoop_eq]
    simp

/-- C4: the filter-inclusion predicate, characterised field by field:
exact status match when requested, exact type match when requested,
and AND-semantics exact (case-sensitive) tag containment. -/
theorem c4_filter_matches_iff (f : TaskFilter) (t : TaskItem) :
    f.matches t = true ↔
      ((∀ st, f.status = some st → t.frontmatter.status = st) ∧
       (∀ ty, f.item_type = some ty → t.frontmatter.item_type = ty) ∧
       (∀ tag ∈ f.tags, tag ∈ t.frontmatter.tags)) := by
  cases hs : f.status <;> cases hi : f.item_type <;>
    simp [TaskFilter.matches, hs, hi, TaskItem.has_tag,
      List.all_eq_true, List.any_eq_true, and_assoc]

/-- C6: the compact-view cursor bug, evaluated at a concrete state
with one Active and one Waiting task.  The displayed concatenation
(Active ++ Next ++ Done) has a single element, but `next_task` wraps
modulo `filtered_tasks().len()` (which still counts the Waiting task)
and moves the cursor to 1 — outside the displayed list. -/
theorem c6_compact_wrap_out_of_display_range :
    (next_task compactBugState).selected_index = 1 ∧
    (display_ordered_tasks compactBugState).length = 1 ∧
    ¬ (next_task compactBugState).selected_index <
        (display_ordered_tasks compactBugState).length := by
  refine ⟨by decide, by decide, by decide⟩

/-- The window-expansion loop of `calculate_date_range`, as folds:
the minimum only ever tracks parsed `start_date`s and the maximum
only parsed `end_date`-else-`due_date`s. -/
theorem calcRangeLoop_eq (tasks : List GTask) (mn mx : Int) :
    calcRangeLoop tasks mn mx =
      ((tasks.filterMap GTask.start_date).foldl min mn,
       (tasks.filterMap (fun t =>
          match t.end_date with
          | some e => some e
          | none => t.due_date)).foldl max mx) := by
  have hmin : ∀ (a b : ℤ), (if a < b then a else b) = min b a := by
    intro a b; split <;> omega
  have hmax : ∀ (a b : ℤ), (if a > b then a else b) = max b a := by
    intro a b; split <;> omega
  induction tasks generalizing mn mx with
  | nil => simp [calcRangeLoop]
  | cons t rest ih =>
    cases h1 : t.start_date <;> cases h2 : t.end_date <;> cases h3 : t.due_date <;>
      simp only [calcRangeLoop, h1, h2, h3, ih, List.filterMap_cons, List.foldl_cons,
        hmin, hmax]

/-- C7 counterexample: a task with only a `due_date` 100 days in the
past.  The claim's resolved start (`start_date, else due_date, else
today`) would lower the window's start to −100, but the code only
lowers it for a parsed `start_date`, leaving the base −7. -/
theorem c7_counterexample :
    calculate_date_range [gTaskDueOnly] 0 0 = (-7, 30) ∧
    claimedDateRange [gTaskDueOnly] 0 0 = (-100, 30) ∧
    calculate_date_range [gTaskDueOnly] 0 0 ≠ claimedDateRange [gTaskDueOnly] 0 0 := by
  refine ⟨by decide, by decide, by decide⟩

/-- C7 amended: the window equals the base `[today − 7, today + 30]`
with the lower bound lowered only to parsed `start_date`s below it,
the upper bound raised only to parsed `end_date`-else-`due_date`s
above it (no further fallbacks on either side), both then shifted by
the scroll offset. -/
theorem c7_window_amended (tasks : List GTask) (today scroll_offset : Int) :
    calculate_date_range tasks today scroll_offset =
      ((tasks.filterMap GTask.start_date).foldl min (today - 7) + scroll_offset,
       (tasks.filterMap (fun t =>
          match t.end_date with
          | some e => some e
          | none => t.due_date)).foldl max (today + 30) + scroll_offset) := by
  unfold calculate_date_range
  rw [calcRangeLoop_eq]

/-- C9: `item_type` has exactly the four alternatives Task, Goal,
Note, Project (all distinct), and projects are found by filtering the
one shared task store on the `item_type` predicate. -/
theorem c9_item_type_and_shared_store :
    (∀ it : ItemType, it = .Task ∨ it = .Goal ∨ it = .Note ∨ it = .Project) ∧
    [ItemType.Task, .Goal, .Note, .Project].Nodup ∧
    ∀ s : AppState,
      get_projects s =
        s.tasks.filter (fun t => t.frontmatter.item_type == ItemType.Project) := by
  refine ⟨fun it => by cases it <;> simp, by decide, fun s => rfl⟩

/-- C10: confirming either creation dialog with a blank
(empty/whitespace-only) title only closes that dialog: the task list,
every cursor and every other field are unchanged, and nothing is
written to storage. -/
theorem c10_blank_dialog_noop :
    (∀ (enrich : Str → EnrichedTask) (newId : Str) (now : Nat) (s : AppState),
        trimL s.new_task_title = [] →
        create_new_task enrich newId now s = ({ s with show_new_task := false }, [])) ∧
    (∀ (newId : Str) (now : Nat) (s : AppState),
        trimL s.new_project_title = [] →
        create_new_project newId now s = ({ s with show_new_project := false }, [])) := by
  constructor
  · intro enrich newId now s h
    simp [create_new_task, h]
  · intro newId now s h
    simp [create_new_project, h]

/-- C10 witness: a concrete state whose dialog buffers hold only
whitespace. -/
theorem c10_blank_dialog_noop_witness :
    create_new_task enrichW uuidZero 0 dialogStateW =
      ({ dialogStateW with show_new_task := false }, []) ∧
    create_new_project uuidZero 0 dialogStateW =
      ({ dialogStateW with show_new_project := false }, []) :=
  ⟨c10_blank_dialog_noop.1 enrichW uuidZero 0 dialogStateW (by decide),
   c10_blank_dialog_noop.2 uuidZero 0 dialogStateW (by decide)⟩


/-- The column task list of a kanban move, expressed through the
wrapped column alone (the row clamp does not affect it). -/
theorem kanban_move_left_kct (s : AppState) :
    kanban_column_tasks (kanban_move_left s) =
      kanban_column_tasks
        { s with kanban_column := if s.kanban_column = 0 then 3 else s.kanban_column - 1 } := by
  unfold kanban_move_left
  dsimp only
  split <;> split <;> rfl

/-- Right-move counterpart of `kanban_move_left_kct`. -/
theorem kanban_move_right_kct (s : AppState) :
    kanban_column_tasks (kanban_move_right s) =
      kanban_column_tasks { s with kanban_column := (s.kanban_column + 1) % 4 } := by
  unfold kanban_move_right
  dsimp only
  split <;> rfl

/-- Moving left wraps the column index. -/
theorem kanban_move_left_col (s : AppState) :
    (kanban_move_left s).kanban_column =
      (if s.kanban_column = 0 then 3 else s.kanban_column - 1) := by
  unfold kanban_move_left
  dsimp only
  split <;> split <;> rfl

/-- Moving right wraps the column index. -/
theorem kanban_move_right_col (s : AppState) :
    (kanban_move_right s).kanban_column = (s.kanban_column + 1) % 4 := by
  unfold kanban_move_right
  dsimp only
  split <;> rfl

/-- Moving left clamps the row to the new column's task count. -/
theorem kanban_move_left_row (s : AppState) :
    (kanban_move_left s).kanban_row =
      min s.kanban_row
        ((kanban_column_tasks
          { s with kanban_column :=
              if s.kanban_column = 0 then 3 else s.kanban_column - 1 }).length - 1) := by
  unfold kanban_move_left
  dsimp only
  split <;> split <;> (dsimp only; omega)

/-- Moving right clamps the row to the new column's task count. -/
theorem kanban_move_right_row (s : AppState) :
    (kanban_move_right s).kanban_row =
      min s.kanban_row
        ((kanban_column_tasks
          { s with kanban_column := (s.kanban_column + 1) % 4 }).length - 1) := by
  unfold kanban_move_right
  dsimp only
  split <;> (dsimp only; omega)

/-- Up/down do not change the column or its task list. -/
theorem kanban_move_up_kct (s : AppState) :
    (kanban_move_up s).kanban_column = s.kanban_column ∧
    kanban_column_tasks (kanban_move_up s) = kanban_column_tasks s := by
  unfold kanban_move_up
  dsimp only
  split
  · split <;> exact ⟨rfl, rfl⟩
  · exact ⟨rfl, rfl⟩

/-- Down counterpart of `kanban_move_up_kct`. -/
theorem kanban_move_down_kct (s : AppState) :
    (kanban_move_down s).kanban_column = s.kanban_column ∧
    kanban_column_tasks (kanban_move_down s) = kanban_column_tasks s := by
  unfold kanban_move_down
  dsimp only
  split <;> exact ⟨rfl, rfl⟩

/-- Row arithmetic of moving up in a non-empty column. -/
theorem kanban_move_up_row (s : AppState)
    (h0 : 0 < (kanban_column_tasks s).length)
    (hr : s.kanban_row < (kanban_column_tasks s).length) :
    (kanban_move_up s).kanban_row =
      (s.kanban_row + (kanban_column_tasks s).length - 1) %
        (kanban_column_tasks s).length := by
  unfold kanban_move_up
  dsimp only
  rw [if_pos h0]
  split
  case isTrue h =>
    dsimp only
    rw [h, Nat.zero_add, Nat.mod_eq_of_lt (by omega)]
  case isFalse h =>
    dsimp only
    have e : s.kanban_row + (kanban_column_tasks s).length - 1 =
        (s.kanban_row - 1) + (kanban_column_tasks s).length := by omega
    rw [e, Nat.add_mod_right, Nat.mod_eq_of_lt (by omega)]

/-- Row arithmetic of moving down in a non-empty column. -/
theorem kanban_move_down_row (s : AppState)
    (h0 : 0 < (kanban_column_tasks s).length) :
    (kanban_move_down s).kanban_row =
      (s.kanban_row + 1) % (kanban_column_tasks s).length := by
  unfold kanban_move_down
  dsimp only
  rw [if_pos h0]

/-- C5: Kanban navigation.  Column changes wrap circularly over the 4
fixed columns and clamp the row to `min(row, new column count − 1)`
(hence 0 when the new column is empty); row changes wrap circularly
modulo the current column count; and every navigation action
preserves the cursor invariant `0 ≤ row < count` when the column is
non-empty and `row = 0` when it is empty. -/
theorem c5_kanban_navigation (s : AppState) (hinv : kanbanInv s) :
    ((kanban_move_left s).kanban_column = (s.kanban_column + 3) % 4 ∧
     (kanban_move_right s).kanban_column = (s.kanban_column + 1) % 4) ∧
    ((kanban_move_left s).kanban_row =
       min s.kanban_row ((kanban_column_tasks (kanban_move_left s)).length - 1) ∧
     (kanban_move_right s).kanban_row =
       min s.kanban_row ((kanban_column_tasks (kanban_move_right s)).length - 1)) ∧
    (0 < (kanban_column_tasks s).length →
       (kanban_move_down s).kanban_row =
         (s.kanban_row + 1) % (kanban_column_tasks s).length ∧
       (kanban_move_up s).kanban_row =
         (s.kanban_row + (kanban_column_tasks s).length - 1) %
           (kanban_column_tasks s).length) ∧
    (∀ a : KanbanAct, kanbanInv (kanbanStep a s)) := by
  obtain ⟨hcol, hlt, hz⟩ := hinv
  refine ⟨⟨?_, kanban_move_right_col s⟩,
    ⟨?_, ?_⟩, ?_, ?_⟩
  · rw [kanban_move_left_col]
    split <;> omega
  · rw [kanban_move_left_row, kanban_move_left_kct]
  · rw [kanban_move_right_row, kanban_move_right_kct]
  · intro h0
    exact ⟨kanban_move_down_row s h0, kanban_move_up_row s h0 (hlt h0)⟩
  · intro a
    cases a with
    | left =>
      show kanbanInv (kanban_move_left s)
      refine ⟨?_, ?_, ?_⟩
      · rw [kanban_move_left_col]
        split <;> omega
      · intro h
        rw [kanban_move_left_kct] at h
        rw [kanban_move_left_kct, kanban_move_left_row]
        omega
      · intro h
        rw [kanban_move_left_kct] at h
        rw [kanban_move_left_row]
        omega
    | right =>
      show kanbanInv (kanban_move_right s)
      refine ⟨?_, ?_, ?_⟩
      · rw [kanban_move_right_col]
        omega
      · intro h
        rw [kanban_move_right_kct] at h
        rw [kanban_move_right_kct, kanban_move_right_row]
        omega
      · intro h
        rw [kanban_move_right_kct] at h
        rw [kanban_move_right_row]
        omega
    | up =>
      obtain ⟨hc, hk⟩ := kanban_move_up_kct s
      show kanbanInv (kanban_move_up s)
      refine ⟨?_, ?_, ?_⟩
      · rw [hc]; exact hcol
      · intro h
        rw [hk] at h ⊢
        rw [kanban_move_up_row s h (hlt h)]
        exact Nat.mod_lt _ h
      · intro h
        rw [hk] at h
        unfold kanban_move_up
        dsimp only
        rw [if_neg (by omega)]
        exact hz h
    | down =>
      obtain ⟨hc, hk⟩ := kanban_move_down_kct s
      show kanbanInv (kanban_move_down s)
      refine ⟨?_, ?_, ?_⟩
      · rw [hc]; exact hcol
      · intro h
        rw [hk] at h ⊢
        rw [kanban_move_down_row s h]
        exact Nat.mod_lt _ h
      · intro h
        rw [hk] at h
        unfold kanban_move_down
        dsimp only
        rw [if_neg (by omega)]
        exact hz h

/-- C5 witness: a concrete Kanban state (two Active tasks, one Done
task, cursor on Active row 1) satisfying the invariant. -/
theorem c5_kanban_navigation_witness :
    (kanban_move_right kanbanStateW).kanban_column = 1 ∧
    (kanban_move_right kanbanStateW).kanban_row = 0 ∧
    kanbanInv (kanban_move_right kanbanStateW) :=
  have h := c5_kanban_navigation kanbanStateW
    ⟨by decide, fun _ => by decide, fun hx => absurd hx (by decide)⟩
  ⟨h.1.2, by rw [h.2.1.2]; decide, h.2.2.2 .right⟩

/-- C8: the timeline date→column mapping equals the claimed
`clamp(floor((date − window_start) / days_per_column), 0, width − 1)`
(with `days_per_column = max(1, total_days / width)`), and it is
monotone non-decreasing in the date. -/
theorem c8_date_to_col_formula_and_monotone (date d1 d2 min_date : Int)
    (total_days width max_col : Nat) (hmc : 0 < max_col) (h12 : d1 ≤ d2) :
    ((date_to_col date min_date (days_per_char total_days width) max_col : Nat) : Int) =
      claimedCol date min_date (days_per_char total_days width) max_col ∧
    date_to_col d1 min_date (days_per_char total_days width) max_col ≤
      date_to_col d2 min_date (days_per_char total_days width) max_col := by
  have hq : (1 : ℚ) ≤ days_per_char total_days width := le_max_right _ _
  have hq0 : (0 : ℚ) < days_per_char total_days width := by linarith
  constructor
  · unfold date_to_col claimedCol
    dsimp only
    rcases le_or_lt 0 (date - min_date) with hcase | hcase
    · rw [max_eq_left hcase]
      have hfl0 : (0 : ℤ) ≤ ⌊((date - min_date : ℤ) : ℚ) / days_per_char total_days width⌋ := by
        apply Int.floor_nonneg.mpr
        apply div_nonneg _ hq0.le
        exact_mod_cast hcase
      rw [max_eq_left hfl0, Nat.cast_min, Int.toNat_of_nonneg hfl0, Nat.cast_sub hmc]
      norm_num
    · rw [max_eq_right hcase.le]
      have hfl : ⌊((date - min_date : ℤ) : ℚ) / days_per_char total_days width⌋ ≤ 0 := by
        apply Int.floor_nonpos
        apply div_nonpos_of_nonpos_of_nonneg _ hq0.le
        exact_mod_cast hcase.le
      rw [max_eq_right hfl]
      simp
      omega
  · unfold date_to_col
    dsimp only
    have h1 : max (d1 - min_date) 0 ≤ max (d2 - min_date) 0 := by omega
    have h2 : ((max (d1 - min_date) 0 : ℤ) : ℚ) / days_per_char total_days width ≤
        ((max (d2 - min_date) 0 : ℤ) : ℚ) / days_per_char total_days width := by
      gcongr
    exact min_le_min (Int.toNat_le_toNat (Int.floor_le_floor h2)) le_rfl

/-- C8 witness: concrete window of 37 days over 80 columns, dates 10
days and −5 days from the window start. -/
theorem c8_date_to_col_witness :
    ((date_to_col 10 0 (days_per_char 37 80) 80 : Nat) : Int) =
      claimedCol 10 0 (days_per_char 37 80) 80 ∧
    date_to_col (-5) 0 (days_per_char 37 80) 80 ≤
      date_to_col 10 0 (days_per_char 37 80) 80 :=
  have h := c8_date_to_col_formula_and_monotone 10 (-5) 10 0 37 80 80
    (by decide) (by decide)
  ⟨h.1, h.2⟩

/-- `Ordering.then` produces `gt` iff the first comparison does, or
ties and the second does. -/
theorem then_eq_gt (o1 o2 : Ordering) :
    o1.then o2 = .gt ↔ (o1 = .gt ∨ (o1 = .eq ∧ o2 = .gt)) := by
  cases o1 <;> simp [Ordering.then]

/-- `leT` is the complement of a strictly-greater comparison. -/
theorem leT_eq_true_iff (a b : TaskItem) :
    leT a b = true ↔ ¬ cmpTasks a b = .gt := by
  unfold leT
  cases cmpTasks a b <;> simp

/-- The comparator in terms of the sort key: `a` sorts strictly after
`b` iff `a`'s key is lexicographically smaller. -/
theorem cmpTasks_gt_iff (a b : TaskItem) :
    cmpTasks a b = .gt ↔
      ((sortKey a).1 < (sortKey b).1 ∨
       ((sortKey a).1 = (sortKey b).1 ∧ (sortKey a).2 < (sortKey b).2)) := by
  unfold cmpTasks sortKey
  rw [then_eq_gt]
  simp [Nat.compare_eq_gt, Nat.compare_eq_eq]
  omega

/-- Totality of the comparator order. -/
theorem leT_total (a b : TaskItem) : leT a b = true ∨ leT b a = true := by
  rw [leT_eq_true_iff, leT_eq_true_iff, cmpTasks_gt_iff, cmpTasks_gt_iff]
  omega

/-- Transitivity of the comparator order. -/
theorem leT_trans (a b c : TaskItem) :
    leT a b = true → leT b c = true → leT a c = true := by
  rw [leT_eq_true_iff, leT_eq_true_iff, leT_eq_true_iff,
    cmpTasks_gt_iff, cmpTasks_gt_iff, cmpTasks_gt_iff]
  omega

/-- A failed `leT` test means strictly greater, hence distinct keys. -/
theorem leT_false_key_ne (x y : TaskItem) (h : ¬ leT x y = true) :
    sortKey x ≠ sortKey y := by
  rw [leT_eq_true_iff, not_not, cmpTasks_gt_iff] at h
  intro he
  rw [Prod.ext_iff] at he
  omega

/-- Stable insertion permutes. -/
theorem insertLe_perm (x : TaskItem) (l : List TaskItem) :
    (insertLe x l).Perm (x :: l) := by
  induction l with
  | nil => exact List.Perm.refl _
  | cons y ys ih =>
    unfold insertLe
    split
    · exact List.Perm.refl _
    · exact (ih.cons y).trans (List.Perm.swap x y ys)

/-- The sort permutes its input. -/
theorem sortLe_perm (l : List TaskItem) : (sortLe l).Perm l := by
  induction l with
  | nil => exact List.Perm.refl _
  | cons x xs ih => exact (insertLe_perm x (sortLe xs)).trans (ih.cons x)

/-- Stable insertion preserves sortedness. -/
theorem insertLe_pairwise (x : TaskItem) (l : List TaskItem)
    (h : l.Pairwise (fun a b => leT a b = true)) :
    (insertLe x l).Pairwise (fun a b => leT a b = true) := by
  induction l with
  | nil => simp [insertLe]
  | cons y ys ih =>
    rcases List.pairwise_cons.mp h with ⟨hy, hys⟩
    unfold insertLe
    split
    case isTrue hxy =>
      refine List.pairwise_cons.mpr ⟨?_, h⟩
      intro z hz
      rcases List.mem_cons.mp hz with rfl | hz
      · exact hxy
      · exact leT_trans x y z hxy (hy z hz)
    case isFalse hxy =>
      have hyx : leT y x = true := by
        rcases leT_total x y with hx | hx
        · exact absurd hx hxy
        · exact hx
      refine List.pairwise_cons.mpr ⟨?_, ih hys⟩
      intro z hz
      rcases List.mem_cons.mp ((insertLe_perm x ys).mem_iff.mp hz) with rfl | hz
      · exact hyx
      · exact hy z hz

/-- The sort output is sorted w.r.t. the comparator. -/
theorem sortLe_pairwise (l : List TaskItem) :
    (sortLe l).Pairwise (fun a b => leT a b = true) := by
  induction l with
  | nil => simp [sortLe]
  | cons x xs ih => exact insertLe_pairwise x (sortLe xs) ih

/-- Stability of insertion: restricted to any one key, insertion
prepends the new element without disturbing the rest. -/
theorem insertLe_filter_key (x : TaskItem) (l : List TaskItem) (k : Nat × Nat) :
    (insertLe x l).filter (fun t => decide (sortKey t = k)) =
      if sortKey x = k then x :: l.filter (fun t => decide (sortKey t = k))
      else l.filter (fun t => decide (sortKey t = k)) := by
  induction l with
  | nil =>
    by_cases hk : sortKey x = k <;> simp [insertLe, hk]
  | cons y ys ih =>
    unfold insertLe
    split
    case isTrue hxy =>
      by_cases hk : sortKey x = k <;> simp [List.filter_cons, hk]
    case isFalse hxy =>
      have hne := leT_false_key_ne x y hxy
      by_cases hk : sortKey x = k
      · have hyk : ¬ sortKey y = k := fun hy => hne (hk.trans hy.symm)
        simp [List.filter_cons, hk, hyk, ih]
      · simp [List.filter_cons, hk, ih]

/-- Stability of the sort: elements of equal key keep their input
order. -/
theorem sortLe_filter_key (l : List TaskItem) (k : Nat × Nat) :
    (sortLe l).filter (fun t => decide (sortKey t = k)) =
      l.filter (fun t => decide (sortKey t = k)) := by
  induction l with
  | nil => rfl
  | cons x xs ih =>
    show (insertLe x (sortLe xs)).filter _ = _
    rw [insertLe_filter_key]
    by_cases hk : sortKey x = k <;> simp [List.filter_cons, hk, ih]

/-- C3: `list_tasks` returns the matching tasks stably sorted with
primary key descending priority and secondary key descending
`created_at`, truncating to the limit strictly after sorting: the
result is the `take` of the sorted sequence; the sorted sequence is a
permutation of the matching tasks, pairwise ordered by the descending
lexicographic key, and filters to the input order on every fixed key
(stability). -/
theorem c3_list_tasks_sorted_limited (f : TaskFilter) (dir : Option (List DirEntry)) :
    (list_tasks f dir =
       match f.limit with
       | some n => (sortLe ((load_all_tasks dir).filter (fun t => f.matches t))).take n
       | none => sortLe ((load_all_tasks dir).filter (fun t => f.matches t))) ∧
    (sortLe ((load_all_tasks dir).filter (fun t => f.matches t))).Perm
      ((load_all_tasks dir).filter (fun t => f.matches t)) ∧
    (sortLe ((load_all_tasks dir).filter (fun t => f.matches t))).Pairwise
      (fun a b =>
        b.frontmatter.priority.rank < a.frontmatter.priority.rank ∨
        (b.frontmatter.priority.rank = a.frontmatter.priority.rank ∧
         b.frontmatter.created_at ≤ a.frontmatter.created_at)) ∧
    ∀ k : Nat × Nat,
      (sortLe ((load_all_tasks dir).filter (fun t => f.matches t))).filter
          (fun t => decide (sortKey t = k)) =
        ((load_all_tasks dir).filter (fun t => f.matches t)).filter
          (fun t => decide (sortKey t = k)) := by
  refine ⟨rfl, sortLe_perm _, ?_, fun k => sortLe_filter_key _ k⟩
  refine (sortLe_pairwise _).imp ?_
  intro a b h
  rw [leT_eq_true_iff, cmpTasks_gt_iff] at h
  unfold sortKey at h
  omega

/-- A digit character read back is its value. -/
theorem digitChar_val {d : Nat} (h : d < 10) :
    (Nat.digitChar d).toNat - 48 = d := by
  have he : d = 0 ∨ d = 1 ∨ d = 2 ∨ d = 3 ∨ d = 4 ∨ d = 5 ∨ d = 6 ∨ d = 7 ∨ d = 8 ∨ d = 9 := by
    omega
  rcases he with rfl | rfl | rfl | rfl | rfl | rfl | rfl | rfl | rfl | rfl <;> decide

/-- Digit characters are digits. -/
theorem digitChar_isDigit {d : Nat} (h : d < 10) :
    (Nat.digitChar d).isDigit = true := by
  have he : d = 0 ∨ d = 1 ∨ d = 2 ∨ d = 3 ∨ d = 4 ∨ d = 5 ∨ d = 6 ∨ d = 7 ∨ d = 8 ∨ d = 9 := by
    omega
  rcases he with rfl | rfl | rfl | rfl | rfl | rfl | rfl | rfl | rfl | rfl <;> decide

/-- A digit is neither whitespace nor a newline. -/
theorem isDigit_not_ws {c : Char} (h : c.isDigit = true) : isWS c = false := by
  unfold isWS
  have h1 : ¬ c = ' ' := by rintro rfl; exact absurd h (by decide)
  have h2 : ¬ c = '\t' := by rintro rfl; exact absurd h (by decide)
  have h3 : ¬ c = '\n' := by rintro rfl; exact absurd h (by decide)
  have h4 : ¬ c = '\r' := by rintro rfl; exact absurd h (by decide)
  simp [h1, h2, h3, h4]

/-- With enough fuel the rendering is never empty. -/
theorem natCharsAux_ne_nil (fuel n : Nat) (h : n < fuel) :
    natCharsAux fuel n ≠ [] := by
  cases fuel with
  | zero => omega
  | succ f =>
    unfold natCharsAux
    split <;> simp

/-- The decimal rendering is never empty. -/
theorem natChars_ne_nil (n : Nat) : natChars n ≠ [] :=
  natCharsAux_ne_nil (n + 1) n (Nat.lt_succ_self n)

/-- With enough fuel every character of the rendering is a digit. -/
theorem natCharsAux_all_digit (fuel : Nat) : ∀ n, n < fuel →
    ∀ c ∈ natCharsAux fuel n, c.isDigit = true := by
  induction fuel with
  | zero => omega
  | succ f ih =>
    intro n hn
    unfold natCharsAux
    split
    case isTrue h =>
      intro c hc
      rw [List.mem_singleton.mp hc]
      exact digitChar_isDigit h
    case isFalse h =>
      intro c hc
      rcases List.mem_append.mp hc with hc | hc
      · exact ih (n / 10) (by omega) c hc
      · rw [List.mem_singleton.mp hc]
        exact digitChar_isDigit (Nat.mod_lt _ (by omega))

/-- Every character of the decimal rendering is a digit. -/
theorem natChars_all_digit (n : Nat) : ∀ c ∈ natChars n, c.isDigit = true :=
  natCharsAux_all_digit (n + 1) n (Nat.lt_succ_self n)

/-- Reading digits left to right accumulates in base 10. -/
theorem parseNatAux_append (a b : Str) (acc : Nat) :
    parseNatAux (a ++ b) acc = parseNatAux b (parseNatAux a acc) := by
  simp [parseNatAux, List.foldl_append]

/-- The accumulator relation of reading back `natCharsAux`. -/
theorem parseNatAux_natCharsAux (fuel : Nat) : ∀ n acc, n < fuel →
    parseNatAux (natCharsAux fuel n) acc =
      acc * 10 ^ (natCharsAux fuel n).length + n := by
  induction fuel with
  | zero => omega
  | succ f ih =>
    intro n acc hn
    unfold natCharsAux
    split
    case isTrue h =>
      simp [parseNatAux, digitChar_val h]
    case isFalse h =>
      rw [parseNatAux_append, List.length_append]
      rw [ih (n / 10) acc (by omega)]
      simp [parseNatAux, digitChar_val (Nat.mod_lt n (by omega) : n % 10 < 10)]
      rw [pow_succ]
      ring_nf
      omega

/-- The accumulator relation of reading back `natChars`. -/
theorem parseNatAux_natChars (n acc : Nat) :
    parseNatAux (natChars n) acc = acc * 10 ^ (natChars n).length + n :=
  parseNatAux_natCharsAux (n + 1) n acc (Nat.lt_succ_self n)

/-- Decimal round-trip: parsing the rendering of `n` recovers `n`. -/
theorem parseNatStr_natChars (n : Nat) : parseNatStr (natChars n) = some n := by
  unfold parseNatStr
  rw [if_pos]
  · rw [parseNatAux_natChars]
    simp
  · simp [natChars_ne_nil, List.all_eq_true]
    exact natChars_all_digit n

/-- Splitting finds a pattern sitting at the very front. -/
theorem splitFirst_self_append (pat b : Str) (hp : pat ≠ []) :
    splitFirst pat (pat ++ b) = some ([], b) := by
  cases pat with
  | nil => exact absurd rfl hp
  | cons p ps =>
    rw [List.cons_append, splitFirst]
    rw [if_pos]
    · simp [List.drop_left']
    · rw [List.isPrefixOf_iff_prefix]
      exact List.prefix_append _ _

/-- One unfolding of the occurrence test. -/
theorem containsSub_cons (pat : Str) (c : Char) (cs : Str) :
    containsSub pat (c :: cs) = (pat.isPrefixOf (c :: cs) || containsSub pat cs) := by
  unfold containsSub
  rw [splitFirst]
  cases hpre : pat.isPrefixOf (c :: cs) <;> simp [hpre]

/-- The central delimiter lemma: if `---` does not occur in `a` and
`a` ends in a newline, then the first occurrence of `---` in
`a ++ --- ++ b` is exactly the middle delimiter. -/
theorem splitFirst_mid (b : Str) :
    ∀ a : Str, containsSub dashes a = false → a.getLast? = some '\n' →
      splitFirst dashes (a ++ (dashes ++ b)) = some (a, b) := by
  intro a
  induction a with
  | nil =>
    intro _ h2
    simp at h2
  | cons c cs ih =>
    intro h1 h2
    rw [containsSub_cons] at h1
    rcases Bool.or_eq_false_iff.mp h1 with ⟨hp, hcs⟩
    have hpre2 : dashes.isPrefixOf (c :: (cs ++ (dashes ++ b))) = false := by
      cases cs with
      | nil =>
        have hc : c = '\n' := by simpa using h2
        subst hc
        rfl
      | cons d cs2 =>
        cases cs2 with
        | nil =>
          have hd : d = '\n' := by simpa using h2
          subst hd
          simp [dashes, List.isPrefixOf]
        | cons e cs3 =>
          have heq : List.isPrefixOf dashes (c :: ((d :: e :: cs3) ++ (dashes ++ b))) =
              List.isPrefixOf dashes (c :: d :: e :: cs3) := by
            simp [dashes, List.isPrefixOf]
          exact heq.trans hp
    rw [List.cons_append, splitFirst]
    rw [if_neg (by rw [hpre2]; exact Bool.false_ne_true)]
    cases cs with
    | nil =>
      rw [List.nil_append, splitFirst_self_append dashes b (by decide)]
      rfl
    | cons d cs2 =>
      have hlast : (d :: cs2).getLast? = some '\n' := by
        rw [List.getLast?_cons_cons] at h2
        exact h2
      rw [ih hcs hlast]
      rfl

/-- Trimming drops a leading whitespace character. -/
theorem trimL_cons_ws (c : Char) (s : Str) (h : isWS c = true) :
    trimL (c :: s) = trimL s := by
  simp [trimL, List.dropWhile_cons, h]

/-- Trimming a block that starts and ends with non-whitespace and
carries one trailing newline recovers the block. -/
theorem trimL_append_nl (core : Str) (c0 cl : Char)
    (h0 : core.head? = some c0) (hw0 : isWS c0 = false)
    (hl : core.getLast? = some cl) (hwl : isWS cl = false) :
    trimL (core ++ ['\n']) = core := by
  cases core with
  | nil => simp at h0
  | cons x xs =>
    have hx : x = c0 := by simpa using h0
    unfold trimL
    rw [List.cons_append, List.dropWhile_cons, if_neg (by simp [hx, hw0])]
    rw [← List.cons_append, List.reverse_append]
    rw [show (['\n'] : Str).reverse = ['\n'] from rfl, List.singleton_append]
    rw [List.dropWhile_cons, if_pos (by decide)]
    have hrev : (x :: xs).reverse.head? = some cl := by
      rw [List.head?_reverse]
      exact hl
    cases hr : (x :: xs).reverse with
    | nil => simp at hr
    | cons r rs =>
      have hrc : r = cl := by rw [hr] at hrev; simpa using hrev
      rw [List.dropWhile_cons, if_neg (by simp [hrc, hwl])]
      rw [← hr, List.reverse_reverse]

/-- Splitting never yields an empty list of lines. -/
theorem splitLinesNL_ne_nil (s : Str) : splitLinesNL s ≠ [] := by
  induction s with
  | nil => simp [splitLinesNL]
  | cons c cs ih =>
    rw [splitLinesNL]
    split
    · simp
    · cases hsp : splitLinesNL cs <;> simp

/-- A newline-free string is a single line. -/
theorem splitLinesNL_no_nl (l : Str) (h : lineSafe l = true) :
    splitLinesNL l = [l] := by
  induction l with
  | nil => rfl
  | cons c cs ih =>
    unfold lineSafe at h
    rw [List.all_cons, Bool.and_eq_true] at h
    obtain ⟨hc, hcs⟩ := h
    have hc' : (c == '\n') = false := by
      revert hc
      cases c == '\n' <;> simp
    rw [splitLinesNL, if_neg (by simp [hc']), ih hcs]

/-- Splitting after a newline-free first line peels it off. -/
theorem splitLinesNL_append_nl (l rest : Str) (h : lineSafe l = true) :
    splitLinesNL (l ++ '\n' :: rest) = l :: splitLinesNL rest := by
  induction l with
  | nil =>
    rw [List.nil_append, splitLinesNL, if_pos (by decide)]
  | cons c cs ih =>
    unfold lineSafe at h
    rw [List.all_cons, Bool.and_eq_true] at h
    obtain ⟨hc, hcs⟩ := h
    have hc' : (c == '\n') = false := by
      revert hc
      cases c == '\n' <;> simp
    rw [List.cons_append, splitLinesNL, if_neg (by simp [hc']), ih hcs]

/-- Splitting inverts joining for non-empty, newline-free lines. -/
theorem splitLinesNL_join (lines : List Str) (hne : lines ≠ [])
    (hsafe : ∀ l ∈ lines, lineSafe l = true) :
    splitLinesNL (joinLines lines) = lines := by
  induction lines with
  | nil => exact absurd rfl hne
  | cons l ls ih =>
    cases ls with
    | nil =>
      show splitLinesNL (joinLines [l]) = [l]
      rw [joinLines]
      exact splitLinesNL_no_nl l (hsafe l (by simp))
    | cons l2 ls2 =>
      rw [joinLines, splitLinesNL_append_nl l _ (hsafe l (by simp))]
      rw [ih (by simp) (fun x hx => hsafe x (List.mem_cons_of_mem l hx))]

/-- The first character of a joined block is the first character of
its first line. -/
theorem joinLines_head (c : Char) (t : Str) (ls : List Str) :
    (joinLines ((c :: t) :: ls)).head? = some c := by
  cases ls <;> simp [joinLines]

/-- A joined block ending in a non-empty line is non-empty. -/
theorem joinLines_ne_nil (ls : List Str) (l : Str) (hl : l ≠ []) :
    joinLines (ls ++ [l]) ≠ [] := by
  induction ls with
  | nil => simpa [joinLines] using hl
  | cons x ls2 ih =>
    cases h : ls2 ++ [l] with
    | nil => exact absurd h (by simp)
    | cons y rest =>
      rw [List.cons_append, h, joinLines]
      simp

/-- The last character of a joined block is the last character of its
final (non-empty) line. -/
theorem joinLines_getLast (ls : List Str) (l : Str) (hl : l ≠ []) :
    (joinLines (ls ++ [l])).getLast? = l.getLast? := by
  induction ls with
  | nil => simp [joinLines]
  | cons x ls2 ih =>
    cases h : ls2 ++ [l] with
    | nil => exact absurd h (by simp)
    | cons y rest =>
      rw [List.cons_append, h, joinLines, ← h]
      have hne : joinLines (ls2 ++ [l]) ≠ [] := joinLines_ne_nil ls2 l hl
      rw [List.getLast?_append]
      cases hj : joinLines (ls2 ++ [l]) with
      | nil => exact absurd hj hne
      | cons j js =>
        rw [← hj]
        have : ('\n' :: joinLines (ls2 ++ [l])).getLast? = (joinLines (ls2 ++ [l])).getLast? := by
          rw [hj]
          exact List.getLast?_cons_cons
        rw [this, ih]
        have : (l.getLast?).isSome = true := by
          cases l with
          | nil => exact absurd rfl hl
          | cons a t => simp [List.getLast?_eq_getLast]
        cases hg : l.getLast? with
        | none => rw [hg] at this; simp at this
        | some g => simp

/-- Newline-freedom distributes over append. -/
theorem lineSafe_append (a b : Str) :
    lineSafe (a ++ b) = (lineSafe a && lineSafe b) := by
  simp [lineSafe, List.all_append]

/-- Decimal renderings contain no newline. -/
theorem lineSafe_natChars (n : Nat) : lineSafe (natChars n) = true := by
  unfold lineSafe
  rw [List.all_eq_true]
  intro c hc
  have hd := natChars_all_digit n c hc
  have hne : ¬ c = '\n' := by rintro rfl; exact absurd hd (by decide)
  simp [hne]

/-- Status names contain no newline. -/
theorem lineSafe_status (st : Status) : lineSafe (Status.as_str st) = true := by
  cases st <;> decide

/-- Item-type names contain no newline. -/
theorem lineSafe_itemType (ty : ItemType) : lineSafe (ItemType.as_str ty) = true := by
  cases ty <;> decide

/-- Priority names contain no newline. -/
theorem lineSafe_priority (p : Priority) : lineSafe (Priority.as_str p) = true := by
  cases p <;> decide

/-- A key/value line of newline-free halves is newline-free. -/
theorem lineSafe_kv (k v : Str) (hk : lineSafe k = true) (hv : lineSafe v = true) :
    lineSafe (k ++ v) = true := by
  rw [lineSafe_append, hk, hv]
  rfl

/-- Every emitted YAML line of a line-safe frontmatter is
newline-free. -/
theorem encLines_safe (fm : Frontmatter) (h : fmLineSafe fm = true) :
    ∀ l ∈ encLines fm, lineSafe l = true := by
  unfold fmLineSafe at h
  simp only [Bool.and_eq_true] at h
  obtain ⟨⟨⟨⟨hid, htitle⟩, hdue2⟩, hpar2⟩, htags⟩ := h
  intro l hl
  unfold encLines at hl
  rcases List.mem_append.mp hl with hl | hl
  · rcases List.mem_append.mp hl with hl | hl
    · rcases List.mem_append.mp hl with hl | hl
      · rcases List.mem_append.mp hl with hl | hl
        · simp only [List.mem_cons, List.not_mem_nil, or_false] at hl
          rcases hl with rfl | rfl | rfl | rfl | rfl
          · exact lineSafe_kv _ _ (by decide) hid
          · exact lineSafe_kv _ _ (by decide) (lineSafe_itemType _)
          · exact lineSafe_kv _ _ (by decide) htitle
          · exact lineSafe_kv _ _ (by decide) (lineSafe_status _)
          · exact lineSafe_kv _ _ (by decide) (lineSafe_priority _)
        · cases htag : fm.tags.isEmpty
          · rw [htag] at hl
            simp only [Bool.false_eq_true, if_false, List.mem_cons, List.mem_map] at hl
            rcases hl with rfl | ⟨t, ht, rfl⟩
            · decide
            · exact lineSafe_kv _ _ (by decide) (List.all_eq_true.mp htags t ht)
          · rw [htag] at hl
            simp only [if_true, List.mem_singleton] at hl
            subst hl
            decide
      · cases hdue0 : fm.due_date with
        | none =>
          rw [hdue0] at hl
          simp at hl
        | some d =>
          rw [hdue0] at hl hdue2
          simp only [List.mem_singleton] at hl
          subst hl
          exact lineSafe_kv _ _ (by decide) hdue2
    · cases hpar0 : fm.parent_goal_id with
      | none =>
        rw [hpar0] at hl
        simp at hl
      | some p =>
        rw [hpar0] at hl hpar2
        simp only [List.mem_singleton] at hl
        subst hl
        exact lineSafe_kv _ _ (by decide) hpar2
  · simp only [List.mem_singleton] at hl
    subst hl
    exact lineSafe_kv _ _ (by decide) (lineSafe_natChars _)

/-- Key/value split of an `id` line. -/
theorem splitKV_id (v : Str) :
    splitFirst ": ".toList ("id: ".toList ++ v) = some ("id".toList, v) := by
  simp [splitFirst, List.isPrefixOf]

/-- Key/value split of a `type` line. -/
theorem splitKV_type (v : Str) :
    splitFirst ": ".toList ("type: ".toList ++ v) = some ("type".toList, v) := by
  simp [splitFirst, List.isPrefixOf]

/-- Key/value split of a `title` line. -/
theorem splitKV_title (v : Str) :
    splitFirst ": ".toList ("title: ".toList ++ v) = some ("title".toList, v) := by
  simp [splitFirst, List.isPrefixOf]

/-- Key/value split of a `status` line. -/
theorem splitKV_status (v : Str) :
    splitFirst ": ".toList ("status: ".toList ++ v) = some ("status".toList, v) := by
  simp [splitFirst, List.isPrefixOf]

/-- Key/value split of a `priority` line. -/
theorem splitKV_priority (v : Str) :
    splitFirst ": ".toList ("priority: ".toList ++ v) = some ("priority".toList, v) := by
  simp [splitFirst, List.isPrefixOf]

/-- Key/value split of a `due_date` line. -/
theorem splitKV_due (v : Str) :
    splitFirst ": ".toList ("due_date: ".toList ++ v) = some ("due_date".toList, v) := by
  simp [splitFirst, List.isPrefixOf]

/-- Key/value split of a `parent_goal_id` line. -/
theorem splitKV_parent (v : Str) :
    splitFirst ": ".toList ("parent_goal_id: ".toList ++ v) =
      some ("parent_goal_id".toList, v) := by
  simp [splitFirst, List.isPrefixOf]

/-- Key/value split of a `created_at` line. -/
theorem splitKV_created (v : Str) :
    splitFirst ": ".toList ("created_at: ".toList ++ v) =
      some ("created_at".toList, v) := by
  simp [splitFirst, List.isPrefixOf]

/-- Dropping the bullet of a block-list item. -/
theorem drop2_dash (t : Str) : ("- ".toList ++ t).drop 2 = t := rfl

/-- A bullet line is a dash item. -/
theorem dashItem_item (t : Str) : dashItem ("- ".toList ++ t) = true := by
  simp [dashItem, List.isPrefixOf]

/-- Status names decode back. -/
theorem status_fromStr_as_str (st : Status) :
    Status.fromStr (Status.as_str st) = some st := by
  cases st <;> rfl

/-- Item-type names decode back. -/
theorem itemType_fromStr_as_str (ty : ItemType) :
    ItemType.fromStr (ItemType.as_str ty) = some ty := by
  cases ty <;> rfl

/-- Priority names decode back. -/
theorem priority_fromStr_as_str (p : Priority) :
    Priority.fromStr (Priority.as_str p) = some p := by
  cases p <;> rfl

/-- Decoder step: an `id` line stores the id. -/
theorem dstep_id (v : Str) (rest : List Str) (acc : PartialFm) (h : acc.pid = none) :
    decodeLines (("id: ".toList ++ v) :: rest) acc =
      decodeLines rest { acc with pid := some v, ptagsOpen := false } := by
  simp [decodeLines, splitFirst, List.isPrefixOf, dashItem, h]

/-- Decoder step: a `type` line stores the decoded item type. -/
theorem dstep_type (ty : ItemType) (rest : List Str) (acc : PartialFm) (h : acc.pty = none) :
    decodeLines (("type: ".toList ++ ItemType.as_str ty) :: rest) acc =
      decodeLines rest { acc with pty := some ty, ptagsOpen := false } := by
  simp [decodeLines, splitFirst, List.isPrefixOf, dashItem, itemType_fromStr_as_str, h]

/-- Decoder step: a `title` line stores the title. -/
theorem dstep_title (v : Str) (rest : List Str) (acc : PartialFm) (h : acc.ptitle = none) :
    decodeLines (("title: ".toList ++ v) :: rest) acc =
      decodeLines rest { acc with ptitle := some v, ptagsOpen := false } := by
  simp [decodeLines, splitFirst, List.isPrefixOf, dashItem, h]

/-- Decoder step: a `status` line stores the decoded status. -/
theorem dstep_status (st : Status) (rest : List Str) (acc : PartialFm)
    (h : acc.pstatus = none) :
    decodeLines (("status: ".toList ++ Status.as_str st) :: rest) acc =
      decodeLines rest { acc with pstatus := some st, ptagsOpen := false } := by
  simp [decodeLines, splitFirst, List.isPrefixOf, dashItem, status_fromStr_as_str, h]

/-- Decoder step: a `priority` line stores the decoded priority. -/
theorem dstep_priority (p : Priority) (rest : List Str) (acc : PartialFm)
    (h : acc.pprio = none) :
    decodeLines (("priority: ".toList ++ Priority.as_str p) :: rest) acc =
      decodeLines rest { acc with pprio := some p, ptagsOpen := false } := by
  simp [decodeLines, splitFirst, List.isPrefixOf, dashItem, priority_fromStr_as_str, h]

/-- Decoder step: the empty flow list `tags: []`. -/
theorem dstep_tags_empty (rest : List Str) (acc : PartialFm) (h : acc.ptags = none) :
    decodeLines ("tags: []".toList :: rest) acc =
      decodeLines rest { acc with ptags := some [], ptagsOpen := false } := by
  simp [decodeLines, splitFirst, List.isPrefixOf, dashItem, h]

/-- Decoder step: a run of bullet lines extends the open tag list. -/
theorem dstep_dash_run (tags : List Str) : ∀ (rest : List Str) (acc : PartialFm)
    (ts0 : List Str), acc.ptagsOpen = true → acc.ptags = some ts0 →
    decodeLines (tags.map (fun t => "- ".toList ++ t) ++ rest) acc =
      decodeLines rest { acc with ptags := some (ts0 ++ tags) } := by
  induction tags with
  | nil =>
    intro rest acc ts0 _ h
    simp only [List.map_nil, List.nil_append, List.append_nil]
    obtain ⟨p1, p2, p3, p4, p5, p6, p7, p8, p9, p10⟩ := acc
    dsimp only at h ⊢
    rw [h]
  | cons t ts ih =>
    intro rest acc ts0 hopen h
    simp only [List.map_cons, List.cons_append]
    rw [show decodeLines (("- ".toList ++ t) ::
          (ts.map (fun t => "- ".toList ++ t) ++ rest)) acc =
        decodeLines (ts.map (fun t => "- ".toList ++ t) ++ rest)
          { acc with ptags := some (ts0 ++ [t]) } from by
      simp [decodeLines, dashItem, List.isPrefixOf, hopen, h]]
    rw [ih _ _ (ts0 ++ [t]) (by simp [hopen]) (by simp)]
    simp

/-- Decoder step: a `tags:` header followed by its bullet block. -/
theorem dstep_tags_block (tags : List Str) (rest : List Str) (acc : PartialFm)
    (h : acc.ptags = none) :
    decodeLines ("tags:".toList :: (tags.map (fun t => "- ".toList ++ t) ++ rest)) acc =
      decodeLines rest { acc with ptags := some tags, ptagsOpen := true } := by
  rw [show decodeLines ("tags:".toList ::
        (tags.map (fun t => "- ".toList ++ t) ++ rest)) acc =
      decodeLines (tags.map (fun t => "- ".toList ++ t) ++ rest)
        { acc with ptags := some [], ptagsOpen := true } from by
    simp [decodeLines, h]]
  rw [dstep_dash_run tags _ _ [] (by simp) (by simp)]
  simp

/-- Decoder step: a `due_date` line stores the date string. -/
theorem dstep_due (v : Str) (rest : List Str) (acc : PartialFm) (h : acc.pdue = none) :
    decodeLines (("due_date: ".toList ++ v) :: rest) acc =
      decodeLines rest { acc with pdue := some v, ptagsOpen := false } := by
  simp [decodeLines, splitFirst, List.isPrefixOf, dashItem, h]

/-- Decoder step: a `parent_goal_id` line stores the id string. -/
theorem dstep_parent (v : Str) (rest : List Str) (acc : PartialFm) (h : acc.pparent = none) :
    decodeLines (("parent_goal_id: ".toList ++ v) :: rest) acc =
      decodeLines rest { acc with pparent := some v, ptagsOpen := false } := by
  simp [decodeLines, splitFirst, List.isPrefixOf, dashItem, h]

/-- Decoder step: a `created_at` line stores the decoded timestamp. -/
theorem dstep_created (n : Nat) (rest : List Str) (acc : PartialFm)
    (h : acc.pcreated = none) :
    decodeLines (("created_at: ".toList ++ natChars n) :: rest) acc =
      decodeLines rest { acc with pcreated := some n, ptagsOpen := false } := by
  simp [decodeLines, splitFirst, List.isPrefixOf, dashItem, parseNatStr_natChars, h]

set_option maxHeartbeats 2000000 in
/-- The decoder consumes the emitted lines into the full record. -/
theorem decodeLines_encLines (fm : Frontmatter) :
    decodeLines (encLines fm) {} = some (fullPartial fm) := by
  obtain ⟨i, ty, ti, st, pr, tags, due, par, cr⟩ := fm
  unfold encLines fullPartial
  dsimp only
  cases tags <;> cases due <;> cases par <;>
    simp only [List.isEmpty_nil, List.isEmpty_cons, if_true, if_false, Bool.false_eq_true,
      ite_true, ite_false, List.cons_append, List.nil_append, List.append_assoc]
  all_goals rw [dstep_id _ _ _ rfl, dstep_type _ _ _ rfl, dstep_title _ _ _ rfl,
    dstep_status _ _ _ rfl, dstep_priority _ _ _ rfl]
  all_goals first
    | rw [dstep_tags_empty _ _ rfl]
    | rw [dstep_tags_block _ _ _ rfl]
  all_goals try rw [dstep_due _ _ _ rfl]
  all_goals try rw [dstep_parent _ _ _ rfl]
  all_goals rw [dstep_created _ _ _ rfl]
  all_goals simp [decodeLines]

/-- Rebuilding from the full record recovers the frontmatter. -/
theorem buildFm_fullPartial (fm : Frontmatter) :
    buildFm (fullPartial fm) = some fm := by
  cases fm
  rfl

/-- The emitted line list is never empty. -/
theorem encLines_ne_nil (fm : Frontmatter) : encLines fm ≠ [] := by
  unfold encLines
  simp

/-- Decoding the joined emitted block recovers the frontmatter. -/
theorem decodeFrontmatter_enc (fm : Frontmatter) (hsafe : fmLineSafe fm = true) :
    decodeFrontmatter (joinLines (encLines fm)) = some fm := by
  unfold decodeFrontmatter
  rw [splitLinesNL_join _ (encLines_ne_nil fm) (encLines_safe fm hsafe)]
  rw [decodeLines_encLines]
  simp [buildFm_fullPartial]

/-- The head of a joined block is the head of its first line. -/
theorem joinLines_head_of (l : Str) (ls : List Str) (c : Char) (h : l.head? = some c) :
    (joinLines (l :: ls)).head? = some c := by
  cases l with
  | nil => simp at h
  | cons x xs =>
    cases ls <;> simp_all [joinLines]

/-- The emitted block starts with the `i` of its `id` line. -/
theorem encCore_head (fm : Frontmatter) :
    (joinLines (encLines fm)).head? = some 'i' := by
  obtain ⟨ls, e⟩ : ∃ ls, encLines fm = ("id: ".toList ++ fm.id) :: ls := ⟨_, rfl⟩
  rw [e]
  exact joinLines_head_of _ _ 'i' rfl

/-- The emitted block ends in a digit of the timestamp. -/
theorem encCore_last (fm : Frontmatter) :
    ∃ d, (joinLines (encLines fm)).getLast? = some d ∧ isWS d = false := by
  obtain ⟨X, e⟩ :
      ∃ X, encLines fm = X ++ ["created_at: ".toList ++ natChars fm.created_at] :=
    ⟨_, rfl⟩
  rw [e, joinLines_getLast X _ (by simp)]
  rw [List.getLast?_append]
  cases hnc : natChars fm.created_at with
  | nil => exact absurd hnc (natChars_ne_nil _)
  | cons a t =>
    have hmem : (a :: t).getLast ((by simp) : a :: t ≠ []) ∈ a :: t := List.getLast_mem _
    refine ⟨(a :: t).getLast (by simp), ?_, ?_⟩
    · simp [List.getLast?_eq_getLast]
    · apply isDigit_not_ws
      apply natChars_all_digit fm.created_at
      rw [hnc]
      exact hmem

/-- Parsing the serialized shape: the two delimiter splits land
exactly around the frontmatter block when `---` does not occur in
it. -/
theorem parse_file_shape (Y body : Str)
    (h1 : containsSub dashes ('\n' :: (Y ++ ['\n'])) = false) :
    parse_file ("---\n".toList ++ (Y ++ "\n".toList) ++ "---\n\n".toList ++ body) =
      (decodeFrontmatter (trimL ('\n' :: (Y ++ ['\n'])))).map
        (fun fm => ⟨fm, trimL ('\n' :: '\n' :: body)⟩) := by
  unfold parse_file
  have hshape : ("---\n".toList : Str) ++ (Y ++ "\n".toList) ++ "---\n\n".toList ++ body =
      dashes ++ (('\n' :: (Y ++ ['\n'])) ++ (dashes ++ ('\n' :: '\n' :: body))) := by
    simp [dashes]
  rw [hshape, splitFirst_self_append dashes _ (by decide)]
  dsimp only
  have hl : ('\n' :: (Y ++ ['\n'])).getLast? = some '\n' := by
    rw [show ('\n' :: (Y ++ ['\n'])) = (('\n' :: Y) ++ ['\n']) from
      (List.cons_append _ _ _).symm]
    rw [List.getLast?_append]
    simp
  rw [splitFirst_mid _ _ h1 hl]

/-- C1 (amended): for every task whose frontmatter string fields are
single-line and whose serialized frontmatter block does not contain
the delimiter `---`, parsing the serialization succeeds and
reproduces every structured frontmatter field exactly and the body up
to trimming. -/
theorem c1_parse_serialize_roundtrip (t : TaskItem)
    (hsafe : fmLineSafe t.frontmatter = true)
    (hdelim : containsSub dashes (encodeYaml t.frontmatter) = false) :
    parse_file (serialize_task t) = some ⟨t.frontmatter, trimL t.body⟩ := by
  unfold serialize_task encodeYaml
  have h1 : containsSub dashes
      ('\n' :: (joinLines (encLines t.frontmatter) ++ ['\n'])) = false := by
    rw [containsSub_cons]
    have h2 : containsSub dashes (joinLines (encLines t.frontmatter) ++ ['\n']) = false := by
      unfold encodeYaml at hdelim
      exact hdelim
    rw [h2]
    rfl
  rw [parse_file_shape _ _ h1]
  have htrim : trimL ('\n' :: (joinLines (encLines t.frontmatter) ++ ['\n'])) =
      joinLines (encLines t.frontmatter) := by
    rw [trimL_cons_ws _ _ (by decide)]
    obtain ⟨d, hd, hdw⟩ := encCore_last t.frontmatter
    exact trimL_append_nl _ 'i' d (encCore_head t.frontmatter) (by decide) hd hdw
  rw [htrim, decodeFrontmatter_enc _ hsafe]
  rw [trimL_cons_ws _ _ (by decide), trimL_cons_ws _ _ (by decide)]
  rfl

set_option maxRecDepth 100000 in
/-- C1 witness: the round trip evaluated on a benign concrete task
(the repo test fixture's shape). -/
theorem c1_parse_serialize_roundtrip_witness :
    parse_file (serialize_task taskGood) =
      some ⟨taskGood.frontmatter, trimL taskGood.body⟩ :=
  c1_parse_serialize_roundtrip taskGood (by decide) (by decide)

set_option maxRecDepth 100000 in
/-- C1 counterexample: a task whose title contains `---`.  The
serialized file's second `---` occurrence falls inside the title
line, the header decode then misses required fields, and parsing
fails — so the unconditional round-trip claim is false. -/
theorem c1_roundtrip_counterexample :
    parse_file (serialize_task taskBadTitle) = none := by decide
